import Mathlib

/-!
Shallow embedding of the Astro `<ViewTransitions />` client script
(src/packages/astro/src/@types/astro.ts, the `<script>` block at lines
2117-2411).  The script implements client-side page-transition navigation:
it intercepts same-origin link clicks, fetches the destination HTML,
reconciles the new document against the live one, and keeps browser
history, scroll position and script re-execution in sync.

Modelling conventions:
* DOM elements relevant to the head merge and stylesheet handling are
  `Elem` records (persistence attribute, stylesheet-ness, href), documents
  are lists of `Elem` in document order.
* `querySelector` is `List.find?`, `querySelectorAll`/iteration is a list
  traversal, `Element.remove()` is `List.erase` (removal of that node).
* JS template-literal stringification of `null` is `attrStr`
  (`none ↦ "null"`), JS string truthiness is `idTruthy`.
* The asynchronous parts (the CSS-fallback timing of `updateDOM`,
  `navigate`s `finally` block, `runScripts`) are embedded as explicit
  event traces; the derivation of each trace from the source and from the
  HTML event-loop rule "all pending microtasks run before the next
  macrotask (a `setTimeout` callback, an `animationend` event, a network
  completion)" is documented at the corresponding definition.
-/

namespace Astro

/-- History entry payload, from `type State = { index: number; scrollY: number }`
(line 2120).  Indexes and scroll offsets are non-negative integers here. -/
structure State where
  index : Nat
  scrollY : Nat
deriving DecidableEq, Repr

/-- `type Direction = 'forward' | 'back'` (line 2119). -/
inductive Direction where
  | forward
  | back
deriving DecidableEq, Repr

/-- Result of `getHTML` (lines 2156-2160): `{ ok: res.ok, html }`. -/
structure FetchResult where
  ok : Bool
  html : String
deriving DecidableEq, Repr

/-! ## Throttle (lines 2143-2154)

`throttle(cb, delay)` keeps a `wait` flag: a call while `wait` is set is
dropped; otherwise the callback fires immediately (leading edge) and
`wait` is set, to be cleared by a `setTimeout` after `delay` ms.  We model
an invocation sequence as the list of its (non-decreasing) timestamps and
compute the timestamps at which the callback actually fires; `ready` is
the time at which the pending `setTimeout` clears `wait` (`0` initially,
i.e. not waiting). -/
def throttleFires (delay : Nat) : List Nat → Nat → List Nat
  | [], _ => []
  | t :: ts, ready =>
    if t < ready then throttleFires delay ts ready
    else t :: throttleFires delay ts (t + delay)

/-- Callback-fire times for a fresh throttled function (initially not waiting). -/
def throttleRun (delay : Nat) (calls : List Nat) : List Nat :=
  throttleFires delay calls 0

/-- The delay used by the scroll listener: `throttle(..., 300)` (line 2408). -/
def scrollThrottleDelay : Nat := 300

/-! ## popstate direction (lines 2374-2378) -/

/-- `const nextIndex = state?.index ?? currentHistoryIndex + 1` (line 2375). -/
def popstateNextIndex (cur : Nat) (st : Option State) : Nat :=
  match st with
  | Option.some s => s.index
  | Option.none => cur + 1

/-- `const direction: Direction = nextIndex > currentHistoryIndex ? 'forward' : 'back'`
(line 2376). -/
def popstateDirection (cur nextIndex : Nat) : Direction :=
  if nextIndex > cur then Direction.forward else Direction.back

/-! ## getFallback and the top-level listener guard (lines 2162-2168, 2327)

`getFallback` returns the raw `content` attribute of the fallback meta
element when that element exists (the TS cast `as Fallback` does not
validate), and the string `'animate'` otherwise.  The outer option is the
presence of the element, the inner option the presence of its `content`
attribute (`getAttribute` returns `null` when absent). -/
def getFallback (el : Option (Option String)) : Option String :=
  match el with
  | Option.some content => content
  | Option.none => Option.some "animate"

/-- The event listeners registered inside the guard
`if (supportsViewTransitions || getFallback() !== 'none')` (lines 2327-2410). -/
inductive ListenerKind where
  | click
  | popstate
  | mouseenterPrefetch
  | touchstartPrefetch
  | focusPrefetch
  | loadListener
  | scrollPersist
deriving DecidableEq, Repr

/-- Listener registration: the whole block of `addEventListener` calls is
guarded by `supportsViewTransitions || getFallback() !== 'none'` (line 2327);
no listener registration occurs outside that guard. -/
def setupListeners (supports : Bool) (fallbackEl : Option (Option String)) :
    List ListenerKind :=
  if supports || !(getFallback fallbackEl == Option.some "none") then
    [ListenerKind.click, ListenerKind.popstate, ListenerKind.mouseenterPrefetch,
     ListenerKind.touchstartPrefetch, ListenerKind.focusPrefetch,
     ListenerKind.loadListener, ListenerKind.scrollPersist]
  else []

/-! ## History model and the click handler (lines 2126, 2351-2356)

Browser history: entries before the current one, the current entry, and the
forward stack.  `replaceState(state, '')` rewrites the current entry's state
keeping its URL; `pushState(state, '', url)` discards the forward stack and
makes a fresh entry current. -/
structure Entry where
  state : Option State
  url : String
deriving DecidableEq, Repr

structure Hist where
  back : List Entry
  cur : Entry
  fwd : List Entry
deriving DecidableEq, Repr

/-- `const persistState = (state) => history.replaceState(state, '')` (line 2126). -/
def persistState (h : Hist) (s : State) : Hist :=
  { h with cur := { h.cur with state := Option.some s } }

/-- `history.pushState(state, '', url)` (line 2356). -/
def pushState (h : Hist) (s : State) (url : String) : Hist :=
  { back := h.back ++ [h.cur],
    cur := { state := Option.some s, url := url },
    fwd := [] }

/-- Outcome of the intercepted click handler body (lines 2351-2356):
the `navigate` call already issued, the new in-memory index, and the
history after the replace and the push. -/
structure ClickResult where
  navDir : Direction
  navHref : String
  navState : State
  newIndex : Nat
  hist : Hist
deriving DecidableEq, Repr

/-- Body of the intercepted click handler (lines 2351-2356), given the
in-memory `currentHistoryIndex`, the window's `scrollY` at click time, the
link's `href` and the current history:
```
navigate('forward', link.href, { index: currentHistoryIndex, scrollY: 0 });
currentHistoryIndex++;
const newState: State = { index: currentHistoryIndex, scrollY };
persistState({ index: currentHistoryIndex - 1, scrollY });
history.pushState(newState, '', link.href);
```
-/
def onLinkClick (cur scrollY : Nat) (href : String) (h : Hist) : ClickResult :=
  let navState : State := { index := cur, scrollY := 0 }
  let cur2 := cur + 1
  let newState : State := { index := cur2, scrollY := scrollY }
  let h1 := persistState h { index := cur2 - 1, scrollY := scrollY }
  let h2 := pushState h1 newState href
  { navDir := Direction.forward, navHref := href, navState := navState,
    newIndex := cur2, hist := h2 }

/-! ## Event-trace model of `updateDOM` / `navigate` / the popstate handler

Observable steps of a navigation, in the order they are performed by the
single-threaded event loop. -/
inductive Ev where
  | fetchStart (href : String)
  | redirect (href : String)
  | reloadPage
  | persistWrite (s : State)
  | setDirAttr (d : Direction)
  | markFallbackOld
  | markFallbackNew
  | headMergeOp
  | bodySwapOp
  | scrollRestore
  | beforeLoadEvent
  | removeTransitionAttr
  | execInline (i : Nat)
  | loadEventFired
  | startViewTransitionCall
deriving DecidableEq, Repr

/-- Steps performed by `swap()` (lines 2210-2244), in source order: the head
merge loop plus append, `document.body.replaceWith` plus the body
persistence pass, `scrollTo(0, state.scrollY)` when a state with a scroll
position was supplied (`state?.scrollY != null`), and
`triggerEvent('astro:beforeload')`. -/
def swapOps (st : Option State) : List Ev :=
  [Ev.headMergeOp, Ev.bodySwapOp] ++
    (match st with
     | Option.some _ => [Ev.scrollRestore]
     | Option.none => []) ++
    [Ev.beforeLoadEvent]

/-- Execution of `updateDOM(dir, html, state, fallback)` (lines 2191-2290) in
the scenario where no stylesheet preloads are injected (`links` is empty, so
`links.length && (await Promise.all(links))` suspends nothing).  Returns the
pair of
* the steps performed before the promise returned by `updateDOM` resolves, and
* the steps deferred to a later macrotask.

In the `fallback === 'animate'` branch (lines 2269-2286) the function sets
the `astroTransitionFallback = 'old'` marker, registers `animationend`, calls
`setTimeout` and *returns*: the actual `swap()` and the `'new'` marker run
inside `fallbackSwap`, which is invoked by the zero-delay timeout callback
(or by an `animationend` event) — both macrotasks.  In every other case
(`fallback` is `'swap'`, `'none'`, or `undefined` on the native path)
`swap()` is called synchronously before the function returns. -/
def updateDOMRun (fallback : Option String) (dir : Direction) (st : Option State) :
    List Ev × List Ev :=
  if fallback == Option.some "animate" then
    ([Ev.setDirAttr dir, Ev.markFallbackOld], swapOps st ++ [Ev.markFallbackNew])
  else
    (Ev.setDirAttr dir :: swapOps st, [])

/-- Inline-script re-execution steps of `runScripts` (lines 2170-2187) for a
page whose scripts are all inline: each `script.replaceWith(s)` executes the
fresh inline script synchronously, in document order, and the returned
`wait` promise is already resolved. -/
def inlineExecs (n : Nat) : List Ev :=
  (List.range n).map Ev.execInline

/-- Full step trace of `navigate(dir, href, state)` (lines 2292-2312), for a
destination page with `nScripts` inline scripts and no stylesheets needing a
preload.

* `getHTML` fetches once (line 2294); on `!ok` the handler sets
  `location.href = href` and returns (lines 2296-2299) — nothing else runs.
* Native path (`supportsViewTransitions`): `startViewTransition` runs
  `updateDOM` (no `fallback` argument, so `swap()` is synchronous) and
  `finished` resolves afterwards; then the `finally` block removes the
  transition attribute, re-runs scripts and fires `astro:load`.
* CSS path: `finished` is the promise of `updateDOM(dir, html, state,
  getFallback())`.  That promise resolves as soon as `updateDOM` returns,
  so the continuation of `await finished` — the `finally` block: remove the
  transition attribute, `runScripts()` (synchronous loop; with only inline
  scripts its `wait` promise is already resolved), then `onload()` — runs
  entirely on the microtask queue, which drains *before* the macrotask
  (zero-delay timeout or `animationend`) that performs the deferred
  `fallbackSwap` of the `'animate'` branch. -/
def navigateRun (supports : Bool) (href : String) (res : FetchResult)
    (fallback : String) (dir : Direction) (st : Option State) (nScripts : Nat) :
    List Ev :=
  Ev.fetchStart href ::
    (if res.ok = false then [Ev.redirect href]
     else if supports then
       let r := updateDOMRun Option.none dir st
       Ev.startViewTransitionCall ::
         (r.1 ++ r.2 ++ [Ev.removeTransitionAttr] ++ inlineExecs nScripts ++
           [Ev.loadEventFired])
     else
       let r := updateDOMRun (Option.some fallback) dir st
       r.1 ++ [Ev.removeTransitionAttr] ++ inlineExecs nScripts ++
         [Ev.loadEventFired] ++ r.2)

/-- Step trace of the popstate listener (lines 2359-2379):
* current page not transition-enabled ⇒ `location.reload()` and return;
* `ev.state === null` (hash-only change) ⇒ persist the current position and
  return;
* otherwise compute `nextIndex` and the direction from `history.state` and
  call `navigate(direction, location.href, state)`. -/
def popstateRun (supports enabled : Bool) (cur scrollY : Nat) (st : Option State)
    (href : String) (res : FetchResult) (fallback : String) (nScripts : Nat) :
    List Ev :=
  if enabled = false then [Ev.reloadPage]
  else
    match st with
    | Option.none => [Ev.persistWrite { index := cur, scrollY := scrollY }]
    | Option.some s =>
      navigateRun supports href res fallback
        (popstateDirection cur (popstateNextIndex cur (Option.some s)))
        (Option.some s) nScripts

/-! ## runScripts execution-order model (lines 2170-2187)

`runScripts` iterates `document.scripts` in document order; for each script
it builds a replacement element and calls `script.replaceWith(s)` — the loop
body contains no `await`, so all replacements happen synchronously in one go.
Replacing an *inline* script executes it immediately at insertion; a
`src`-bearing script inserted through the DOM is force-async: the browser
fetches it and runs it later, delivering its `load` event as a macrotask.
The chained `wait` promise (`wait = wait.then(() => p)`) therefore resolves
only after every `src` script's `load` event, but it gates nothing inside
the loop. -/
structure Script where
  src : Option String
  body : String
deriving DecidableEq, Repr

/-- Events of the script re-execution phase. -/
inductive SEv where
  | replace (i : Nat)
  | execInline (i : Nat)
  | loadSrc (i : Nat)
  | waitDone
deriving DecidableEq, Repr

/-- Synchronous part of the `runScripts` loop starting at script index `k`:
each script is replaced in order; an inline one executes at its replacement,
a `src`-bearing one does not run synchronously. -/
def syncScriptEvents : Nat → List Script → List SEv
  | _, [] => []
  | k, s :: rest =>
    (SEv.replace k ::
        (match s.src with
         | Option.some _ => []
         | Option.none => [SEv.execInline k])) ++
      syncScriptEvents (k + 1) rest

/-- Whether script `i` of the list is inline (present and without `src`). -/
def isInlineAt (scripts : List Script) (i : Nat) : Bool :=
  match scripts[i]? with
  | Option.some s => s.src.isNone
  | Option.none => false

/-- Full trace of `runScripts` on `scripts`: the synchronous replacement
loop, then — in whichever order the network delivers them (`delivery` lists
the `src`-script indices in arrival order) — the `load` events, and finally
the resolution of the returned `wait` chain, which `navigate` awaits before
firing `astro:load`.  `wait` is a sequential `.then` chain over every `src`
script's load promise, so it settles only after all of them. -/
def runScriptsTrace (scripts : List Script) (delivery : List Nat) : List SEv :=
  syncScriptEvents 0 scripts ++ delivery.map SEv.loadSrc ++ [SEv.waitDone]

/-- The event at which script `i` first executes: at its (synchronous)
replacement when inline, at its `load` delivery when `src`-bearing. -/
def execEvent (scripts : List Script) (i : Nat) : SEv :=
  if isInlineAt scripts i then SEv.execInline i else SEv.loadSrc i

/-- The load-blocking property claimed of `runScripts`: for every script `i`
bearing a `src` that has a successor, the successor's first execution comes
strictly after script `i`'s load event in the trace. -/
def scriptLoadBlockingHolds (scripts : List Script) (delivery : List Nat) : Bool :=
  (List.range scripts.length).all fun i =>
    if (!isInlineAt scripts i) && i + 1 < scripts.length then
      (runScriptsTrace scripts delivery).indexOf (SEv.loadSrc i) <
        (runScriptsTrace scripts delivery).indexOf (execEvent scripts (i + 1))
    else true

/-- `a` occurs strictly before `b` somewhere in `tr`. -/
def occursBefore (tr : List SEv) (a b : SEv) : Prop :=
  ∃ i j : Nat, i < j ∧ tr[i]? = Option.some a ∧ tr[j]? = Option.some b

/-! ## DOM elements, the head merge and the stylesheet preload pass

An element carries the data relevant to `persistedHeadElement` and the
preload pass: its `data-astro-transition-persist` attribute, whether it
matches `link[rel=stylesheet]`, and its `href` attribute; `nodeId`
distinguishes distinct nodes with identical attributes. -/
structure Elem where
  nodeId : Nat
  persistId : Option String
  isStylesheet : Bool
  href : Option String
deriving DecidableEq, Repr

/-- JS template-literal rendering of an attribute value:
`getAttribute` yields `null` for an absent attribute, and interpolating
`null` into a selector string produces the text `"null"`. -/
def attrStr : Option String → String
  | Option.some s => s
  | Option.none => "null"

/-- Truthiness of `el.getAttribute(PERSIST_ATTR)`: a string is truthy iff it
is non-empty; `null` is falsy. -/
def idTruthy (el : Elem) : Bool :=
  match el.persistId with
  | Option.some s => !(s == "")
  | Option.none => false

/-- Matching `link[rel=stylesheet][href="${href}"]` where `href` is
`el.getAttribute('href')` (line 2205). -/
def predB (el e : Elem) : Bool :=
  e.isStylesheet && (e.href == Option.some (attrStr el.href))

/-- `persistedHeadElement` (lines 2197-2208) against the incoming head `inc`
(in document order):
```
const id = el.getAttribute(PERSIST_ATTR);
const newEl = id && doc.head.querySelector(`[PERSIST_ATTR="${id}"]`);
if (newEl) return newEl;
if (el.matches('link[rel=stylesheet]')) {
  const href = el.getAttribute('href');
  return doc.head.querySelector(`link[rel=stylesheet][href="${href}"]`);
}
return null;
```
-/
def persistedHeadElement (inc : List Elem) (el : Elem) : Option Elem :=
  match (if idTruthy el then inc.find? (fun e => e.persistId == el.persistId)
         else Option.none) with
  | Option.some newEl => Option.some newEl
  | Option.none =>
    if el.isStylesheet then inc.find? (predB el) else Option.none

/-- The equivalence used by the head merge, in one predicate: matched by
persistence identifier (when the live element has a truthy one), or — for a
stylesheet link — by `href`. -/
def elemMatch (el e : Elem) : Bool :=
  (idTruthy el && (e.persistId == el.persistId)) || (el.isStylesheet && predB el e)

/-- The head-merge loop of `swap()` (lines 2212-2222) with the trailing
append (line 2224).  The loop runs over a snapshot
(`Array.from(document.head.children)`) of the live head; for each live
element with a `persistedHeadElement` in the (current) incoming head, the
incoming equivalent is removed (`newEl.remove()`) and the live element kept;
otherwise the live element is removed.  Returns (kept live elements,
remaining incoming head). -/
def swapHeadAux : List Elem → List Elem → List Elem × List Elem
  | [], inc => ([], inc)
  | el :: rest, inc =>
    match persistedHeadElement inc el with
    | Option.some newEl =>
      let r := swapHeadAux rest (inc.erase newEl)
      (el :: r.1, r.2)
    | Option.none => swapHeadAux rest inc

/-- The live head after the merge: the kept live elements (in place, in
order) followed by `document.head.append(...doc.head.children)` — every
remaining incoming head child, appended. -/
def swapHead (live inc : List Elem) : List Elem :=
  (swapHeadAux live inc).1 ++ (swapHeadAux live inc).2

/-! ### Stylesheet preload pass (lines 2246-2267) -/

/-- The skip test of the preload loop: `document.querySelector` over the
whole live document with the selector
`` `[PERSIST_ATTR="${el.getAttribute(PERSIST_ATTR)}"], link[rel=stylesheet]` ``
— a comma-separated selector list, matching an element that either carries
the (stringified) persistence attribute of `el` or is *any* stylesheet
link. -/
def preloadSkip (live : List Elem) (el : Elem) : Bool :=
  live.any (fun e => e.persistId == Option.some (attrStr el.persistId)) ||
    live.any (fun e => e.isStylesheet)

/-- The hrefs for which the preload loop injects a `<link rel=preload>` and
whose settle promises the swap then awaits: every stylesheet link of the
incoming head (`doc.querySelectorAll('head link[rel=stylesheet]')`) that
does not pass the skip test. -/
def preloadsInjected (live incHead : List Elem) : List (Option String) :=
  ((incHead.filter (fun e => e.isStylesheet)).filter
      (fun el => !(preloadSkip live el))).map (fun el => el.href)

/-- Whether the live document already contains a stylesheet link with the
same `href` as `el` — the "equivalent already present live" notion of the
specification. -/
def liveHasSameStylesheet (live : List Elem) (el : Elem) : Bool :=
  live.any (fun e => e.isStylesheet && (e.href == el.href))

end Astro

/-! ### Sanity checks on the basic definitions -/

example : Astro.throttleRun 300 [0, 10, 299, 300] = [0, 300] := by decide

example : Astro.popstateDirection 2 3 = Astro.Direction.forward := by decide

example : Astro.popstateDirection 2 2 = Astro.Direction.back := by decide

/-! ## Helper lemmas -/

/-- Every call strictly inside the wait window is dropped by the throttle. -/
theorem throttleFires_all_dropped (ts : List Nat) (ready : Nat)
    (h : ∀ t ∈ ts, t < ready) : Astro.throttleFires 300 ts ready = [] := by
  induction ts with
  | nil => rfl
  | cons t ts ih =>
    have ht : t < ready := h t (by simp)
    simp only [Astro.throttleFires, if_pos ht]
    exact ih (fun u hu => h u (by simp [hu]))

/-! ## Claim theorems -/

/-- Claim C7 (confirmed): on a popstate carrying a state with an index, the
computed direction is `forward` exactly when the incoming index is strictly
greater than the in-memory current index, and `back` exactly otherwise — in
particular equal indices yield `back` (the total function never throws). -/
theorem C7_direction (cur : Nat) (s : Astro.State) :
    (Astro.popstateDirection cur (Astro.popstateNextIndex cur (Option.some s)) =
        Astro.Direction.forward ↔ cur < s.index) ∧
    (Astro.popstateDirection cur (Astro.popstateNextIndex cur (Option.some s)) =
        Astro.Direction.back ↔ s.index ≤ cur) := by
  simp only [Astro.popstateNextIndex, Astro.popstateDirection]
  by_cases h : cur < s.index
  · simp [h, Nat.not_le.mpr h]
  · simp [h, Nat.le_of_not_lt h]

/-- Witness for C7 at concrete inputs: current index 2 with incoming index 3
gives forward; incoming 1 gives back; the tie (incoming 2) gives back. -/
theorem C7_direction_witness :
    Astro.popstateDirection 2
        (Astro.popstateNextIndex 2 (Option.some { index := 3, scrollY := 0 })) =
      Astro.Direction.forward ∧
    Astro.popstateDirection 2
        (Astro.popstateNextIndex 2 (Option.some { index := 1, scrollY := 0 })) =
      Astro.Direction.back ∧
    Astro.popstateDirection 2
        (Astro.popstateNextIndex 2 (Option.some { index := 2, scrollY := 0 })) =
      Astro.Direction.back :=
  ⟨(C7_direction 2 { index := 3, scrollY := 0 }).1.mpr (by decide),
   (C7_direction 2 { index := 1, scrollY := 0 }).2.mpr (by decide),
   (C7_direction 2 { index := 2, scrollY := 0 }).2.mpr (by decide)⟩

/-- Claim C9 (confirmed): invoking the throttled scroll-persist callback any
number of times within one 300 ms window fires the callback exactly once, on
the first (leading) call; the later calls are dropped (the fire times are a
sublist of the call times — nothing is deferred to a new time). -/
theorem C9_throttle (t0 : Nat) (ts : List Nat)
    (hwin : ∀ t ∈ ts, t < t0 + 300) :
    Astro.throttleRun 300 (t0 :: ts) = [t0] ∧
    (Astro.throttleRun 300 (t0 :: ts)).Sublist (t0 :: ts) := by
  have hfire : Astro.throttleRun 300 (t0 :: ts) = [t0] := by
    simp only [Astro.throttleRun, Astro.throttleFires, Nat.not_lt_zero, if_neg,
      Nat.lt_irrefl, false_iff, if_false]
    rw [throttleFires_all_dropped ts (t0 + 300) hwin]
  exact ⟨hfire, by rw [hfire]; exact (List.nil_sublist ts).cons₂ t0⟩

/-- Witness for C9 at a concrete input: calls at 0, 50 and 299 ms with a
300 ms window fire exactly once, at time 0. -/
theorem C9_throttle_witness :
    Astro.throttleRun 300 [0, 50, 299] = [0] ∧
    (Astro.throttleRun 300 [0, 50, 299]).Sublist [0, 50, 299] :=
  C9_throttle 0 [50, 299] (by decide)

/-- Claim C10 (confirmed): without the native view-transition primitive and
with the fallback marker resolving to `none`, the guard at line 2327 fails
and the script registers no listener at all — no click interception, no
popstate handling, no prefetch listeners, no scroll persistence. -/
theorem C10_disabled (supports : Bool) (el : Option (Option String))
    (h1 : supports = false) (h2 : Astro.getFallback el = Option.some "none") :
    Astro.setupListeners supports el = [] ∧
    (Astro.setupListeners supports el).contains Astro.ListenerKind.click = false ∧
    (Astro.setupListeners supports el).contains Astro.ListenerKind.popstate = false ∧
    (Astro.setupListeners supports el).contains
      Astro.ListenerKind.mouseenterPrefetch = false ∧
    (Astro.setupListeners supports el).contains
      Astro.ListenerKind.scrollPersist = false := by
  subst h1
  simp [Astro.setupListeners, h2]

/-- Witness for C10 at a concrete input: a fallback meta element with
content `none` and no native support. -/
theorem C10_disabled_witness :
    Astro.setupListeners false (Option.some (Option.some "none")) = [] ∧
    (Astro.setupListeners false (Option.some (Option.some "none"))).contains
      Astro.ListenerKind.click = false ∧
    (Astro.setupListeners false (Option.some (Option.some "none"))).contains
      Astro.ListenerKind.popstate = false ∧
    (Astro.setupListeners false (Option.some (Option.some "none"))).contains
      Astro.ListenerKind.mouseenterPrefetch = false ∧
    (Astro.setupListeners false (Option.some (Option.some "none"))).contains
      Astro.ListenerKind.scrollPersist = false :=
  C10_disabled false (Option.some (Option.some "none")) rfl rfl

/-- Claim C5 (confirmed): when the fetch of the destination HTML reports a
non-ok response, `navigate` performs a full browser navigation to that URL
and nothing else: the trace is exactly one fetch followed by the redirect —
no head merge, no body swap, no scroll change, and no second fetch. -/
theorem C5_fetch_failure (supports : Bool) (href : String)
    (res : Astro.FetchResult) (fallback : String) (dir : Astro.Direction)
    (st : Option Astro.State) (n : Nat) (h : res.ok = false) :
    Astro.navigateRun supports href res fallback dir st n =
      [Astro.Ev.fetchStart href, Astro.Ev.redirect href] ∧
    (Astro.navigateRun supports href res fallback dir st n).countP
      (fun e => match e with | Astro.Ev.headMergeOp => true | _ => false) = 0 ∧
    (Astro.navigateRun supports href res fallback dir st n).countP
      (fun e => match e with | Astro.Ev.bodySwapOp => true | _ => false) = 0 ∧
    (Astro.navigateRun supports href res fallback dir st n).countP
      (fun e => match e with | Astro.Ev.scrollRestore => true | _ => false) = 0 ∧
    (Astro.navigateRun supports href res fallback dir st n).countP
      (fun e => match e with | Astro.Ev.fetchStart _ => true | _ => false) = 1 := by
  have htr : Astro.navigateRun supports href res fallback dir st n =
      [Astro.Ev.fetchStart href, Astro.Ev.redirect href] := by
    simp [Astro.navigateRun, h]
  refine ⟨htr, ?_, ?_, ?_, ?_⟩ <;> rw [htr] <;> rfl

/-- Witness for C5 at a concrete input: a 500-style response for `/next`. -/
theorem C5_fetch_failure_witness :
    Astro.navigateRun false "/next" { ok := false, html := "" } "animate"
        Astro.Direction.forward Option.none 0 =
      [Astro.Ev.fetchStart "/next", Astro.Ev.redirect "/next"] ∧
    (Astro.navigateRun false "/next" { ok := false, html := "" } "animate"
        Astro.Direction.forward Option.none 0).countP
      (fun e => match e with | Astro.Ev.headMergeOp => true | _ => false) = 0 ∧
    (Astro.navigateRun false "/next" { ok := false, html := "" } "animate"
        Astro.Direction.forward Option.none 0).countP
      (fun e => match e with | Astro.Ev.bodySwapOp => true | _ => false) = 0 ∧
    (Astro.navigateRun false "/next" { ok := false, html := "" } "animate"
        Astro.Direction.forward Option.none 0).countP
      (fun e => match e with | Astro.Ev.scrollRestore => true | _ => false) = 0 ∧
    (Astro.navigateRun false "/next" { ok := false, html := "" } "animate"
        Astro.Direction.forward Option.none 0).countP
      (fun e => match e with | Astro.Ev.fetchStart _ => true | _ => false) = 1 :=
  C5_fetch_failure false "/next" { ok := false, html := "" } "animate"
    Astro.Direction.forward Option.none 0 rfl

/-- Claim C8 (confirmed): a popstate arriving while the current page lacks
the transition-enabled marker performs a full reload and nothing else — in
particular no fetch, no head merge and no body swap. -/
theorem C8_optout (supports enabled : Bool) (cur scrollY : Nat)
    (st : Option Astro.State) (href : String) (res : Astro.FetchResult)
    (fallback : String) (n : Nat) (h : enabled = false) :
    Astro.popstateRun supports enabled cur scrollY st href res fallback n =
      [Astro.Ev.reloadPage] ∧
    (Astro.popstateRun supports enabled cur scrollY st href res fallback n).countP
      (fun e => match e with | Astro.Ev.fetchStart _ => true | _ => false) = 0 ∧
    (Astro.popstateRun supports enabled cur scrollY st href res fallback n).countP
      (fun e => match e with | Astro.Ev.headMergeOp => true | _ => false) = 0 ∧
    (Astro.popstateRun supports enabled cur scrollY st href res fallback n).countP
      (fun e => match e with | Astro.Ev.bodySwapOp => true | _ => false) = 0 := by
  have htr : Astro.popstateRun supports enabled cur scrollY st href res fallback n =
      [Astro.Ev.reloadPage] := by
    simp [Astro.popstateRun, h]
  refine ⟨htr, ?_, ?_, ?_⟩ <;> rw [htr] <;> rfl

/-- Witness for C8 at a concrete input. -/
theorem C8_optout_witness :
    Astro.popstateRun true false 2 0 (Option.some { index := 1, scrollY := 40 })
        "/prev" { ok := true, html := "" } "animate" 0 = [Astro.Ev.reloadPage] ∧
    (Astro.popstateRun true false 2 0 (Option.some { index := 1, scrollY := 40 })
        "/prev" { ok := true, html := "" } "animate" 0).countP
      (fun e => match e with | Astro.Ev.fetchStart _ => true | _ => false) = 0 ∧
    (Astro.popstateRun true false 2 0 (Option.some { index := 1, scrollY := 40 })
        "/prev" { ok := true, html := "" } "animate" 0).countP
      (fun e => match e with | Astro.Ev.headMergeOp => true | _ => false) = 0 ∧
    (Astro.popstateRun true false 2 0 (Option.some { index := 1, scrollY := 40 })
        "/prev" { ok := true, html := "" } "animate" 0).countP
      (fun e => match e with | Astro.Ev.bodySwapOp => true | _ => false) = 0 :=
  C8_optout true false 2 0 (Option.some { index := 1, scrollY := 40 }) "/prev"
    { ok := true, html := "" } "animate" 0 rfl

/-- A concrete starting history for the click-handler analysis: one entry,
index 0, unscrolled. -/
def clickDemoHist : Astro.Hist :=
  { back := [],
    cur := { state := Option.some { index := 0, scrollY := 0 }, url := "/" },
    fwd := [] }

/-- Claim C1, counterexample: clicking a link to `/next` while scrolled to
`scrollY = 100` pushes an entry whose state is
`{ index: 1, scrollY: 100 }` — the new entry's `scrollY` is the click-time
scroll position, not `0` as the claim states. -/
theorem C1_counterexample :
    ((Astro.onLinkClick 0 100 "/next" clickDemoHist).hist.cur.state ==
        Option.some { index := 1, scrollY := 0 }) = false ∧
    (Astro.onLinkClick 0 100 "/next" clickDemoHist).hist.cur.state =
      Option.some { index := 1, scrollY := 100 } := by decide

/-- Claim C1 as amended (corrected): on an intercepted link click the
in-memory index increases by exactly 1; the outgoing entry is rewritten in
place (non-navigating replace, URL kept) with the pre-navigation scroll
position and the old index; a new entry is pushed with the target URL whose
state carries the new index and the *click-time* scroll position (while the
state handed to the in-flight `navigate` call carries the old index and
`scrollY = 0` for the destination). -/
theorem C1_amended_thm (cur scrollY : Nat) (href : String) (h : Astro.Hist) :
    (Astro.onLinkClick cur scrollY href h).newIndex = cur + 1 ∧
    (Astro.onLinkClick cur scrollY href h).hist.back =
      h.back ++ [{ state := Option.some { index := cur, scrollY := scrollY },
                   url := h.cur.url }] ∧
    (Astro.onLinkClick cur scrollY href h).hist.cur =
      { state := Option.some { index := cur + 1, scrollY := scrollY },
        url := href } ∧
    (Astro.onLinkClick cur scrollY href h).hist.fwd = [] ∧
    (Astro.onLinkClick cur scrollY href h).navDir = Astro.Direction.forward ∧
    (Astro.onLinkClick cur scrollY href h).navHref = href ∧
    (Astro.onLinkClick cur scrollY href h).navState =
      { index := cur, scrollY := 0 } := by
  simp [Astro.onLinkClick, Astro.persistState, Astro.pushState]

/-- A live document holding one stylesheet link `/a.css`. -/
def liveStyleA : Astro.Elem :=
  { nodeId := 0, persistId := Option.none, isStylesheet := true,
    href := Option.some "/a.css" }

/-- An incoming head holding one stylesheet link `/b.css`. -/
def incStyleB : Astro.Elem :=
  { nodeId := 1, persistId := Option.none, isStylesheet := true,
    href := Option.some "/b.css" }

/-- Claim C2, evaluation at the failing input: the live page uses `/a.css`,
the incoming page `/b.css`.  The incoming stylesheet has no equivalent in
the live document, yet the preload loop injects nothing, because its skip
selector `` `[persist-attr="..."], link[rel=stylesheet]` `` is a
comma-separated union that matches *any* live stylesheet link regardless of
`href`. -/
theorem C2_code_eval :
    Astro.liveHasSameStylesheet [liveStyleA] incStyleB = false ∧
    Astro.preloadSkip [liveStyleA] incStyleB = true ∧
    Astro.preloadsInjected [liveStyleA] [incStyleB] = [] := by decide

/-- Claim C3, evaluation at the failing input: CSS fallback path, fallback
mode `animate`, a destination with one inline script, no preloads and no CSS
animation.  The promise returned by `updateDOM` resolves as soon as the
timeout is scheduled, so the `finally` block — marker removal, script
re-execution, the `astro:load` signal — runs on microtasks *before* the
zero-delay timeout performs the body swap: `astro:load` precedes the swap,
contradicting the claimed ordering. -/
theorem C3_code_eval :
    Astro.navigateRun false "/next" { ok := true, html := "<p>" } "animate"
        Astro.Direction.forward (Option.some { index := 1, scrollY := 0 }) 1 =
      [Astro.Ev.fetchStart "/next",
       Astro.Ev.setDirAttr Astro.Direction.forward,
       Astro.Ev.markFallbackOld,
       Astro.Ev.removeTransitionAttr,
       Astro.Ev.execInline 0,
       Astro.Ev.loadEventFired,
       Astro.Ev.headMergeOp,
       Astro.Ev.bodySwapOp,
       Astro.Ev.scrollRestore,
       Astro.Ev.beforeLoadEvent,
       Astro.Ev.markFallbackNew] ∧
    (Astro.navigateRun false "/next" { ok := true, html := "<p>" } "animate"
        Astro.Direction.forward (Option.some { index := 1, scrollY := 0 })
        1).indexOf Astro.Ev.loadEventFired <
      (Astro.navigateRun false "/next" { ok := true, html := "<p>" } "animate"
        Astro.Direction.forward (Option.some { index := 1, scrollY := 0 })
        1).indexOf Astro.Ev.bodySwapOp := by decide

/-! ## Script re-execution order (claim C4) -/

open Astro in
/-- If `a` occurs in `xs` and `b` in `ys`, `a` occurs before `b` in `xs ++ ys`. -/
theorem occursBefore_of_mem_append {xs ys : List SEv} {a b : SEv}
    (ha : a ∈ xs) (hb : b ∈ ys) : occursBefore (xs ++ ys) a b := by
  obtain ⟨i, hi, hia⟩ := List.mem_iff_getElem.mp ha
  obtain ⟨j, hj, hjb⟩ := List.mem_iff_getElem.mp hb
  refine ⟨i, xs.length + j, by omega, ?_, ?_⟩
  · rw [List.getElem?_append_left hi]
    simp [List.getElem?_eq_getElem hi, hia]
  · rw [List.getElem?_append_right (Nat.le_add_right _ _)]
    simp only [Nat.add_sub_cancel_left]
    simp [List.getElem?_eq_getElem hj, hjb]

open Astro in
/-- `occursBefore` survives prepending. -/
theorem occursBefore_append_left (zs : List SEv) {tr : List SEv} {a b : SEv}
    (h : occursBefore tr a b) : occursBefore (zs ++ tr) a b := by
  obtain ⟨i, j, hij, hia, hjb⟩ := h
  refine ⟨zs.length + i, zs.length + j, by omega, ?_, ?_⟩
  · rw [List.getElem?_append_right (Nat.le_add_right _ _)]
    simpa [Nat.add_sub_cancel_left] using hia
  · rw [List.getElem?_append_right (Nat.le_add_right _ _)]
    simpa [Nat.add_sub_cancel_left] using hjb

open Astro in
/-- `occursBefore` survives appending. -/
theorem occursBefore_append_sfx (zs : List SEv) {tr : List SEv} {a b : SEv}
    (h : occursBefore tr a b) : occursBefore (tr ++ zs) a b := by
  obtain ⟨i, j, hij, hia, hjb⟩ := h
  have hi : i < tr.length := (List.getElem?_eq_some.mp hia).1
  have hj : j < tr.length := (List.getElem?_eq_some.mp hjb).1
  exact ⟨i, j, hij, by rw [List.getElem?_append_left hi]; exact hia,
    by rw [List.getElem?_append_left hj]; exact hjb⟩

open Astro in
/-- Every inline script's execution event is in the synchronous part of the
`runScripts` loop. -/
theorem execInline_mem_sync : ∀ (l : List Script) (k i : Nat),
    isInlineAt l i = true → SEv.execInline (k + i) ∈ syncScriptEvents k l := by
  intro l
  induction l with
  | nil => intro k i h; simp [isInlineAt] at h
  | cons s rest ih =>
    intro k i h
    cases i with
    | zero =>
      have hs : s.src = Option.none := by
        have : s.src.isNone = true := by simpa [isInlineAt] using h
        exact Option.isNone_iff_eq_none.mp this
      simp [syncScriptEvents, hs]
    | succ i2 =>
      have h2 : isInlineAt rest i2 = true := by simpa [isInlineAt] using h
      have hm := ih (k + 1) i2 h2
      rw [show k + 1 + i2 = k + (i2 + 1) by omega] at hm
      simp only [syncScriptEvents, List.mem_append]
      exact Or.inr hm

open Astro in
/-- Every script position has its replacement event in the synchronous part
of the `runScripts` loop. -/
theorem replace_mem_sync : ∀ (l : List Script) (k i : Nat),
    i < l.length → SEv.replace (k + i) ∈ syncScriptEvents k l := by
  intro l
  induction l with
  | nil => intro k i h; simp at h
  | cons s rest ih =>
    intro k i h
    cases i with
    | zero => simp [syncScriptEvents]
    | succ i2 =>
      have hm := ih (k + 1) i2 (by simpa using h)
      rw [show k + 1 + i2 = k + (i2 + 1) by omega] at hm
      simp only [syncScriptEvents, List.mem_append]
      exact Or.inr hm

open Astro in
/-- In the synchronous part of the loop, inline executions occur in document
order. -/
theorem sync_exec_order : ∀ (l : List Script) (k i j : Nat), i < j →
    isInlineAt l i = true → isInlineAt l j = true →
    occursBefore (syncScriptEvents k l)
      (SEv.execInline (k + i)) (SEv.execInline (k + j)) := by
  intro l
  induction l with
  | nil => intro k i j hij hi hj; simp [isInlineAt] at hi
  | cons s rest ih =>
    intro k i j hij hi hj
    cases i with
    | zero =>
      obtain ⟨j2, rfl⟩ : ∃ j2, j = j2 + 1 := ⟨j - 1, by omega⟩
      have hs : s.src = Option.none := by
        have : s.src.isNone = true := by simpa [isInlineAt] using hi
        exact Option.isNone_iff_eq_none.mp this
      have hj2 : isInlineAt rest j2 = true := by simpa [isInlineAt] using hj
      have hb := execInline_mem_sync rest (k + 1) j2 hj2
      rw [show k + 1 + j2 = k + (j2 + 1) by omega] at hb
      have ha : SEv.execInline k ∈ [SEv.replace k, SEv.execInline k] := by simp
      have hcomb := occursBefore_of_mem_append ha hb
      simpa [syncScriptEvents, hs] using hcomb
    | succ i2 =>
      obtain ⟨j2, rfl⟩ : ∃ j2, j = j2 + 1 := ⟨j - 1, by omega⟩
      have hi2 : isInlineAt rest i2 = true := by simpa [isInlineAt] using hi
      have hj2 : isInlineAt rest j2 = true := by simpa [isInlineAt] using hj
      have hrec := ih (k + 1) i2 j2 (by omega) hi2 hj2
      rw [show k + 1 + i2 = k + (i2 + 1) by omega,
        show k + 1 + j2 = k + (j2 + 1) by omega] at hrec
      have := occursBefore_append_left
        (SEv.replace k ::
          (match s.src with
           | Option.some _ => []
           | Option.none => [SEv.execInline k])) hrec
      simpa [syncScriptEvents] using this

open Astro in
/-- In the synchronous part of the loop, replacements occur in document
order. -/
theorem sync_replace_order : ∀ (l : List Script) (k i j : Nat), i < j →
    j < l.length →
    occursBefore (syncScriptEvents k l)
      (SEv.replace (k + i)) (SEv.replace (k + j)) := by
  intro l
  induction l with
  | nil => intro k i j hij hj; simp at hj
  | cons s rest ih =>
    intro k i j hij hj
    cases i with
    | zero =>
      obtain ⟨j2, rfl⟩ : ∃ j2, j = j2 + 1 := ⟨j - 1, by omega⟩
      have hb := replace_mem_sync rest (k + 1) j2 (by simpa using hj)
      rw [show k + 1 + j2 = k + (j2 + 1) by omega] at hb
      have ha : SEv.replace k ∈ SEv.replace k ::
          (match s.src with
           | Option.some _ => []
           | Option.none => [SEv.execInline k]) := List.mem_cons_self _ _
      have hcomb := occursBefore_of_mem_append ha hb
      simpa [syncScriptEvents] using hcomb
    | succ i2 =>
      obtain ⟨j2, rfl⟩ : ∃ j2, j = j2 + 1 := ⟨j - 1, by omega⟩
      have hrec := ih (k + 1) i2 j2 (by omega) (by simpa using hj)
      rw [show k + 1 + i2 = k + (i2 + 1) by omega,
        show k + 1 + j2 = k + (j2 + 1) by omega] at hrec
      have := occursBefore_append_left
        (SEv.replace k ::
          (match s.src with
           | Option.some _ => []
           | Option.none => [SEv.execInline k])) hrec
      simpa [syncScriptEvents] using this

/-- The two scripts of the C4 counterexample page: an external script
`a.js` followed by an inline script. -/
def scriptsDemo : List Astro.Script :=
  [{ src := Option.some "a.js", body := "" },
   { src := Option.none, body := "console" }]

/-- Claim C4, counterexample: with an external script followed by an inline
script, the `runScripts` loop replaces both synchronously, so the inline
successor executes *before* the external predecessor's load event settles —
the load event is not awaited before the successor runs, and the scripts do
not execute in document order. -/
theorem C4_counterexample :
    Astro.scriptLoadBlockingHolds scriptsDemo [0] = false ∧
    (Astro.runScriptsTrace scriptsDemo [0]).indexOf (Astro.SEv.execInline 1) <
      (Astro.runScriptsTrace scriptsDemo [0]).indexOf (Astro.SEv.loadSrc 0) := by
  decide

open Astro in
/-- Claim C4 as amended (corrected): `runScripts` re-inserts every script
synchronously in original document order; inline scripts execute immediately
at their re-insertion, in document order, and are never delayed behind any
external script's load (whatever order the network delivers the loads); the
`wait` promise that `navigate` awaits before firing `astro:load` settles
only after every delivered load event. -/
theorem C4_amended_thm (scripts : List Script) (delivery : List Nat) :
    (∀ i j, i < j → j < scripts.length →
      occursBefore (runScriptsTrace scripts delivery)
        (SEv.replace i) (SEv.replace j)) ∧
    (∀ i j, i < j → isInlineAt scripts i = true → isInlineAt scripts j = true →
      occursBefore (runScriptsTrace scripts delivery)
        (SEv.execInline i) (SEv.execInline j)) ∧
    (∀ i, isInlineAt scripts i = true → ∀ k ∈ delivery,
      occursBefore (runScriptsTrace scripts delivery)
        (SEv.execInline i) (SEv.loadSrc k)) ∧
    (∀ k ∈ delivery,
      occursBefore (runScriptsTrace scripts delivery)
        (SEv.loadSrc k) SEv.waitDone) := by
  refine ⟨?_, ?_, ?_, ?_⟩
  · intro i j hij hj
    have h := sync_replace_order scripts 0 i j hij hj
    have h2 : occursBefore (syncScriptEvents 0 scripts)
        (SEv.replace i) (SEv.replace j) := by simpa using h
    simpa [runScriptsTrace] using
      occursBefore_append_sfx (delivery.map SEv.loadSrc ++ [SEv.waitDone]) h2
  · intro i j hij hi hj
    have h := sync_exec_order scripts 0 i j hij hi hj
    have h2 : occursBefore (syncScriptEvents 0 scripts)
        (SEv.execInline i) (SEv.execInline j) := by simpa using h
    simpa [runScriptsTrace] using
      occursBefore_append_sfx (delivery.map SEv.loadSrc ++ [SEv.waitDone]) h2
  · intro i hi k hk
    have ha : SEv.execInline i ∈ syncScriptEvents 0 scripts := by
      simpa using execInline_mem_sync scripts 0 i hi
    have hb : SEv.loadSrc k ∈ delivery.map SEv.loadSrc ++ [SEv.waitDone] :=
      List.mem_append_left _ (List.mem_map_of_mem _ hk)
    simpa [runScriptsTrace] using occursBefore_of_mem_append ha hb
  · intro k hk
    have ha : SEv.loadSrc k ∈
        syncScriptEvents 0 scripts ++ delivery.map SEv.loadSrc :=
      List.mem_append_right _ (List.mem_map_of_mem _ hk)
    have hb : SEv.waitDone ∈ [SEv.waitDone] := by simp
    have := occursBefore_of_mem_append ha hb
    simpa [runScriptsTrace, List.append_assoc] using this

/-! ## Head merge (claim C6)

The merge loop mutates the incoming head while it runs: when a live element
finds its equivalent, that incoming element is removed before the next live
element is looked up.  Under the well-formedness hypotheses that every live
element has at most one equivalent in the incoming head and that no two live
elements share an equivalent, the sequential removals do not disturb later
lookups, and the merge has the claimed closed form. -/

open Astro in
/-- Under at-most-one-match, the two-stage lookup of `persistedHeadElement`
(first by persistence identifier, then by stylesheet `href`) coincides with
the first element matching the combined equivalence `elemMatch`. -/
theorem persistedHeadElement_eq_find (el : Elem) :
    ∀ inc : List Elem, inc.countP (elemMatch el) ≤ 1 →
    persistedHeadElement inc el = inc.find? (elemMatch el) := by
  intro inc
  induction inc with
  | nil =>
    intro _
    cases hid : idTruthy el <;> cases hsty : el.isStylesheet <;>
      simp [persistedHeadElement, hid, hsty]
  | cons e tl ih =>
    intro h
    cases hme : elemMatch el e with
    | true =>
      rw [List.find?_cons_of_pos _ hme]
      have h0 : tl.countP (elemMatch el) = 0 := by
        rw [List.countP_cons_of_pos _ _ hme] at h
        omega
      have hall := List.countP_eq_zero.mp h0
      have hcases := hme
      simp only [elemMatch, Bool.or_eq_true, Bool.and_eq_true] at hcases
      rcases hcases with ⟨hid, hpe⟩ | ⟨hsty, hpb⟩
      · simp [persistedHeadElement, hid, hpe]
      · by_cases hid : idTruthy el = true
        · by_cases hpe : (e.persistId == el.persistId) = true
          · simp [persistedHeadElement, hid, hpe]
          · have hpA : tl.find? (fun e2 => e2.persistId == el.persistId) =
                Option.none := by
              rw [List.find?_eq_none]
              intro x hx hpx
              exact hall x hx (by simp [elemMatch, hid, hpx])
            simp [persistedHeadElement, hid, hpe, hpA, hsty, hpb]
        · simp [persistedHeadElement, hid, hsty, hpb]
    | false =>
      have hAB : ((idTruthy el && (e.persistId == el.persistId)) = false) ∧
          ((el.isStylesheet && predB el e) = false) := by
        simpa [elemMatch] using hme
      rw [List.find?_cons_of_neg _ (by simp [hme])]
      have htl : tl.countP (elemMatch el) ≤ 1 := by
        rw [List.countP_cons_of_neg _ _ (by simp [hme])] at h
        exact h
      rw [← ih htl]
      by_cases hid : idTruthy el = true
      · have hpe : (e.persistId == el.persistId) = false := by
          have := hAB.1
          simpa [hid] using this
        by_cases hsty : el.isStylesheet = true
        · have hpb : predB el e = false := by
            have := hAB.2
            simpa [hsty] using this
          simp [persistedHeadElement, hid, hpe, hsty, hpb]
        · simp [persistedHeadElement, hid, hpe, hsty]
      · by_cases hsty : el.isStylesheet = true
        · have hpb : predB el e = false := by
            have := hAB.2
            simpa [hsty] using this
          simp [persistedHeadElement, hid, hsty, hpb]
        · simp [persistedHeadElement, hid, hsty]

open Astro in
/-- Removing an element that fails the predicate does not change `find?`. -/
theorem find?_erase_of_pred_false (p : Elem → Bool) (x : Elem)
    (hpx : p x = false) :
    ∀ l : List Elem, (l.erase x).find? p = l.find? p := by
  intro l
  induction l with
  | nil => rfl
  | cons a tl ih =>
    rw [List.erase_cons]
    by_cases hax : (a == x) = true
    · rw [if_pos hax]
      have hax2 : a = x := eq_of_beq hax
      subst hax2
      rw [List.find?_cons_of_neg _ (by simp [hpx])]
    · rw [if_neg hax]
      cases hpa : p a
      · rw [List.find?_cons_of_neg _ (by simp [hpa]),
          List.find?_cons_of_neg _ (by simp [hpa])]
        exact ih
      · rw [List.find?_cons_of_pos _ hpa, List.find?_cons_of_pos _ hpa]

open Astro in
/-- After removing the unique `elemMatch`-equivalent of `el`, nothing left
matches `el`. -/
theorem erase_no_match (el : Elem) :
    ∀ (l : List Elem) (x : Elem), x ∈ l → elemMatch el x = true →
    l.countP (elemMatch el) ≤ 1 → ∀ e ∈ l.erase x, elemMatch el e = false := by
  intro l
  induction l with
  | nil => intro x hx; exact absurd hx (List.not_mem_nil x)
  | cons a tl ih =>
    intro x hx hmx hcnt e he
    rw [List.erase_cons] at he
    by_cases hax : (a == x) = true
    · rw [if_pos hax] at he
      have hax2 : a = x := eq_of_beq hax
      subst hax2
      have h0 : tl.countP (elemMatch el) = 0 := by
        rw [List.countP_cons_of_pos _ _ hmx] at hcnt
        omega
      have := List.countP_eq_zero.mp h0 e he
      simpa using this
    · rw [if_neg hax] at he
      have hx2 : x ∈ tl := by
        rcases List.mem_cons.mp hx with h | h
        · exact absurd (by simp [h]) hax
        · exact h
      rcases List.mem_cons.mp he with rfl | he2
      · cases hval : elemMatch el e with
        | false => rfl
        | true =>
          exfalso
          have hpos : 0 < tl.countP (elemMatch el) :=
            List.countP_pos_iff.mpr ⟨x, hx2, hmx⟩
          rw [List.countP_cons_of_pos _ _ hval] at hcnt
          omega
      · have hcnt2 : tl.countP (elemMatch el) ≤ 1 := by
          rw [List.countP_cons] at hcnt
          omega
        exact ih x hx2 hmx hcnt2 e he2

open Astro in
/-- Filtering out the matches of `el` and then by `p` is the same as erasing
`el`'s unique equivalent `x` and filtering by `p`. -/
theorem filter_erase_eq (el x : Elem) :
    ∀ (l : List Elem) (p : Elem → Bool), x ∈ l → elemMatch el x = true →
    (∀ e ∈ l.erase x, elemMatch el e = false) →
    l.filter (fun e => !(elemMatch el e) && p e) = (l.erase x).filter p := by
  intro l
  induction l with
  | nil => intro p hx; exact absurd hx (List.not_mem_nil x)
  | cons a tl ih =>
    intro p hx hmx hall
    rw [List.erase_cons]
    by_cases hax : (a == x) = true
    · rw [if_pos hax]
      have hax2 : a = x := eq_of_beq hax
      subst hax2
      rw [List.filter_cons_of_neg (by simp [hmx])]
      apply List.filter_congr
      intro e he
      have hfe : elemMatch el e = false :=
        hall e (by rw [List.erase_cons, if_pos hax]; exact he)
      simp [hfe]
    · rw [if_neg hax]
      have hx2 : x ∈ tl := by
        rcases List.mem_cons.mp hx with h | h
        · exact absurd (by simp [h]) hax
        · exact h
      have hfa : elemMatch el a = false :=
        hall a (by rw [List.erase_cons, if_neg hax]; exact List.mem_cons_self _ _)
      have hall2 : ∀ e ∈ tl.erase x, elemMatch el e = false := fun e he =>
        hall e (by rw [List.erase_cons, if_neg hax]; exact List.mem_cons_of_mem _ he)
      cases hpa : p a
      · rw [List.filter_cons_of_neg (by simp [hfa, hpa]),
          List.filter_cons_of_neg (by simp [hpa])]
        exact ih p hx2 hmx hall2
      · rw [List.filter_cons_of_pos (by simp [hfa, hpa]),
          List.filter_cons_of_pos hpa, ih p hx2 hmx hall2]

open Astro in
/-- Closed form of the merge loop: under unique and pairwise-disjoint
equivalents, the kept live elements are exactly those with a match in the
*original* incoming head, and the remaining incoming elements are exactly
those matched by no live element. -/
theorem swapHeadAux_spec :
    ∀ (live inc : List Elem),
    (∀ el ∈ live, inc.countP (elemMatch el) ≤ 1) →
    List.Pairwise
      (fun a b => ∀ e ∈ inc, elemMatch a e = true → elemMatch b e = true → False)
      live →
    swapHeadAux live inc =
      (live.filter (fun el => (inc.find? (elemMatch el)).isSome),
       inc.filter (fun e => !(live.any (fun el2 => elemMatch el2 e)))) := by
  intro live
  induction live with
  | nil =>
    intro inc h1 h2
    simp [swapHeadAux]
  | cons el rest ih =>
    intro inc h1 h2
    have hcnt : inc.countP (elemMatch el) ≤ 1 := h1 el (List.mem_cons_self _ _)
    have hpel := persistedHeadElement_eq_find el inc hcnt
    rw [List.pairwise_cons] at h2
    obtain ⟨hdisj, hpw⟩ := h2
    cases hfind : inc.find? (elemMatch el) with
    | none =>
      have hnone : ∀ e ∈ inc, elemMatch el e = false := by
        intro e he
        have := List.find?_eq_none.mp hfind e he
        simpa using this
      have hstep : swapHeadAux (el :: rest) inc = swapHeadAux rest inc := by
        rw [swapHeadAux, hpel, hfind]
      rw [hstep, ih inc (fun e2 he2 => h1 e2 (List.mem_cons_of_mem _ he2)) hpw]
      simp only [Prod.mk.injEq]
      refine ⟨?_, ?_⟩
      · rw [List.filter_cons_of_neg (by simp [hfind])]
      · apply List.filter_congr
        intro e he
        simp [hnone e he]
    | some x =>
      have hxmem : x ∈ inc := List.mem_of_find?_eq_some hfind
      have hxmatch : elemMatch el x = true := List.find?_some hfind
      have hstep : swapHeadAux (el :: rest) inc =
          (el :: (swapHeadAux rest (inc.erase x)).1,
           (swapHeadAux rest (inc.erase x)).2) := by
        rw [swapHeadAux, hpel, hfind]
      have hsub : (inc.erase x).Sublist inc := List.erase_sublist x inc
      have h1r : ∀ e2 ∈ rest, (inc.erase x).countP (elemMatch e2) ≤ 1 :=
        fun e2 he2 =>
          le_trans (hsub.countP_le _) (h1 e2 (List.mem_cons_of_mem _ he2))
      have hpwr : List.Pairwise (fun a b => ∀ e ∈ inc.erase x,
          elemMatch a e = true → elemMatch b e = true → False) rest :=
        hpw.imp (fun hR e he hma hmb => hR e (hsub.subset he) hma hmb)
      have hno : ∀ e2 ∈ rest, elemMatch e2 x = false := by
        intro e2 he2
        cases hv : elemMatch e2 x with
        | false => rfl
        | true => exact (hdisj e2 he2 x hxmem hxmatch hv).elim
      rw [hstep, ih (inc.erase x) h1r hpwr]
      simp only [Prod.mk.injEq]
      refine ⟨?_, ?_⟩
      · rw [List.filter_cons_of_pos (by simp [hfind])]
        congr 1
        apply List.filter_congr
        intro e2 he2
        rw [find?_erase_of_pred_false (elemMatch e2) x (hno e2 he2) inc]
      · have hallF : ∀ e ∈ inc.erase x, elemMatch el e = false :=
          erase_no_match el inc x hxmem hxmatch hcnt
        have hD := filter_erase_eq el x inc
          (fun e => !(rest.any (fun el2 => elemMatch el2 e))) hxmem hxmatch hallF
        rw [← hD]
        apply List.filter_congr
        intro e _
        simp [Bool.not_or]

open Astro in
/-- Claim C6 (confirmed, under the well-formedness hypotheses that every
live head element has at most one equivalent in the incoming head and that
no two live elements share an equivalent): after the merge, the live head
consists of exactly those live elements whose equivalent exists in the
incoming head (matched by persistence identifier or, for stylesheet links,
by `href`) — each such equivalent having been removed from the incoming
head — followed by every remaining incoming head child, appended at the
end. -/
theorem C6_head_merge (live inc : List Astro.Elem)
    (h1 : ∀ el ∈ live, inc.countP (elemMatch el) ≤ 1)
    (h2 : List.Pairwise
      (fun a b => ∀ e ∈ inc, elemMatch a e = true → elemMatch b e = true → False)
      live) :
    swapHead live inc =
      live.filter (fun el => (persistedHeadElement inc el).isSome) ++
        inc.filter (fun e => !(live.any (fun el2 => elemMatch el2 e))) := by
  have hs := swapHeadAux_spec live inc h1 h2
  have hfst : (swapHeadAux live inc).1 =
      live.filter (fun el => (inc.find? (elemMatch el)).isSome) := by rw [hs]
  have hsnd : (swapHeadAux live inc).2 =
      inc.filter (fun e => !(live.any (fun el2 => elemMatch el2 e))) := by rw [hs]
  unfold swapHead
  rw [hfst, hsnd]
  congr 1
  apply List.filter_congr
  intro el hel
  rw [persistedHeadElement_eq_find el inc (h1 el hel)]

/-- A live head for the C6 witness: a persisted element, a stylesheet, and a
plain element absent from the destination. -/
def demoLive : List Astro.Elem :=
  [{ nodeId := 0, persistId := Option.some "keep", isStylesheet := false,
     href := Option.none },
   { nodeId := 1, persistId := Option.none, isStylesheet := true,
     href := Option.some "/s.css" },
   { nodeId := 2, persistId := Option.none, isStylesheet := false,
     href := Option.none }]

/-- The incoming head for the C6 witness: equivalents of the first two live
elements plus one genuinely new element. -/
def demoInc : List Astro.Elem :=
  [{ nodeId := 10, persistId := Option.some "keep", isStylesheet := false,
     href := Option.none },
   { nodeId := 11, persistId := Option.none, isStylesheet := true,
     href := Option.some "/s.css" },
   { nodeId := 12, persistId := Option.none, isStylesheet := false,
     href := Option.none }]

/-- Witness for C6 at a concrete input. -/
theorem C6_head_merge_witness :
    Astro.swapHead demoLive demoInc =
      demoLive.filter
        (fun el => (Astro.persistedHeadElement demoInc el).isSome) ++
        demoInc.filter
          (fun e => !(demoLive.any (fun el2 => Astro.elemMatch el2 e))) :=
  C6_head_merge demoLive demoInc (by decide) (by decide)

example :
    Astro.swapHead demoLive demoInc =
      [{ nodeId := 0, persistId := Option.some "keep", isStylesheet := false,
         href := Option.none },
       { nodeId := 1, persistId := Option.none, isStylesheet := true,
         href := Option.some "/s.css" },
       { nodeId := 12, persistId := Option.none, isStylesheet := false,
         href := Option.none }] := by decide

/-- Witness for the amended C4 at a concrete input: on the two-script demo
page with the load delivered after the loop, the replacements occur in
order, the inline script executes before the external load settles, and the
awaited chain settles after the load. -/
theorem C4_amended_witness :
    Astro.occursBefore (Astro.runScriptsTrace scriptsDemo [0])
      (Astro.SEv.replace 0) (Astro.SEv.replace 1) ∧
    Astro.occursBefore (Astro.runScriptsTrace scriptsDemo [0])
      (Astro.SEv.execInline 1) (Astro.SEv.loadSrc 0) ∧
    Astro.occursBefore (Astro.runScriptsTrace scriptsDemo [0])
      (Astro.SEv.loadSrc 0) Astro.SEv.waitDone :=
  ⟨(C4_amended_thm scriptsDemo [0]).1 0 1 (by decide) (by decide),
   (C4_amended_thm scriptsDemo [0]).2.2.1 1 (by decide) 0 (by decide),
   (C4_amended_thm scriptsDemo [0]).2.2.2 0 (by decide)⟩
